import Mathlib

/-
Verification of the signature-descrambling engine of `app.py`.

The engine downloads a player script, extracts a helper object and the main
transform function with regular expressions, classifies the helper members
into three known array operations, caches the extracted program in a
process-wide dictionary, and replays the program over the characters of a
ciphered signature.

The embedding below models strings as `List Char` and models each regular
expression of `app.py` as a deterministic scanner: every character class in
those regexes is disjoint from the character that follows it, so greedy
maximal munch coincides with the backtracking semantics on the inputs
considered here.  A Python exception that would escape the function
(`ZeroDivisionError` in `func_swap`, `KeyError` on a missing cache key) is
modelled as `none` / `ReplayOutcome.raised`.
-/

/-- Strings of the player script, modelled as lists of characters. -/
abbrev JStr := List Char

/-- Python's regex class `\s` on the ASCII range (space, tab, newline,
carriage return, vertical tab, form feed). -/
def pySpace (c : Char) : Bool :=
  c == ' ' || c == '\t' || c == '\n' || c == '\r' || c == '\x0b' || c == '\x0c'

/-- The character class `[a-zA-Z0-9$]` used for identifiers in the regexes of
`app.py` (lines 40, 51, 75-77, 107). -/
def identChar (c : Char) : Bool := c.isAlpha || c.isDigit || c == '$'

/-- The ASCII part of the regex class `\w`, used by the main-function regex
(line 50). -/
def wordChar (c : Char) : Bool := c.isAlpha || c.isDigit || c == '_'

/-- Python `int()` applied to a string of decimal digits (line 112). -/
def natOfDigits (ds : JStr) : Nat := ds.foldl (fun n c => n * 10 + (c.toNat - 48)) 0

/-- Python `str.split(';')` (line 58): split on every semicolon, keeping empty
chunks, so a string with k semicolons yields k+1 chunks. -/
def splitOnSemi : JStr → List JStr
  | [] => [[]]
  | c :: rest =>
    if c = ';' then [] :: splitOnSemi rest
    else
      match splitOnSemi rest with
      | [] => [[c]]
      | h :: t => (c :: h) :: t

/-- Python `str.strip()` (line 89): remove leading and trailing whitespace. -/
def pyStrip (s : JStr) : JStr := ((s.dropWhile pySpace).reverse.dropWhile pySpace).reverse

/-- The test `leadsWith lit s` holds when `s` starts with the literal `lit`; used to
model matching a literal fragment of a regex. -/
def leadsWith : JStr → JStr → Bool
  | [], _ => true
  | _ :: _, [] => false
  | a :: as, b :: bs => a == b && leadsWith as bs

/-- The part `([a-zA-Z0-9$]+\.[a-zA-Z0-9$]+)` of the call regex at line 107,
anchored at the start of the input (`re.match`): a qualified name made of two
identifiers joined by a dot.  Returns the captured name and the rest. -/
def parseQualName (s : JStr) : Option (JStr × JStr) :=
  let n1 := s.takeWhile identChar
  if n1.isEmpty then none
  else
    match s.drop n1.length with
    | '.' :: r1 =>
      let n2 := r1.takeWhile identChar
      if n2.isEmpty then none
      else some (n1 ++ '.' :: n2, r1.drop n2.length)
    | _ => none

/-- The part `\s*(\d+)\)` of the call regex at line 107: optional whitespace,
one or more digits (converted by `int()` at line 112), a closing parenthesis.
Anything after the parenthesis is ignored, as `re.match` does not anchor the
end. -/
def parseAfterParen (r : JStr) : Option Nat :=
  let r1 := r.dropWhile pySpace
  let ds := r1.takeWhile Char.isDigit
  if ds.isEmpty then none
  else
    match r1.drop ds.length with
    | ')' :: _ => some (natOfDigits ds)
    | _ => none

/-- The whole regex `([a-zA-Z0-9$]+\.[a-zA-Z0-9$]+)\(a,\s*(\d+)\)` of
line 107 applied with `re.match`: on success, the qualified name and the
integer parameter of one operation statement. -/
def parseFuncCall (s : JStr) : Option (JStr × Nat) :=
  match parseQualName s with
  | none => none
  | some (q, rest) =>
    match rest with
    | '(' :: 'a' :: ',' :: r3 => (parseAfterParen r3).map (fun p => (q, p))
    | _ => none

/-- The program steps that survive the per-statement match of lines 107-109:
statements that fail the call regex are dropped (`continue`). -/
def parsedSteps (ops : List JStr) : List (JStr × Nat) := ops.filterMap parseFuncCall

/-- The three recognized operation semantics, i.e. the three Python helper
functions of lines 65-72 that the extracted table can map a name to. -/
inductive OpKind where
  | splice
  | reverse
  | swap
deriving DecidableEq

/-- The helper `func_splice` (line 65): `del arr[:index]` removes the first `index`
elements (clamped at the length). -/
def func_splice (arr : JStr) (index : Nat) : JStr := arr.drop index

/-- The helper `func_reverse` (line 66): reverse the array; extra arguments ignored. -/
def func_reverse (arr : JStr) : JStr := arr.reverse

/-- The helper `func_swap` (lines 67-72): `index = index % len(arr)` followed by the
three-line swap of positions 0 and `index`.  On an empty array Python's
`index % len(arr)` raises `ZeroDivisionError`, modelled as `none`; the `getD`
defaults are never used because `index % len(arr) < len(arr)` when the length
is positive. -/
def func_swap (arr : JStr) (index : Nat) : Option JStr :=
  if arr.length = 0 then none
  else
    let i := index % arr.length
    let temp := arr.getD 0 'a'
    some ((arr.set 0 (arr.getD i 'a')).set i temp)

/-- Dispatch of a resolved operation at replay time (line 115). -/
def applyOp : OpKind → JStr → Nat → Option JStr
  | OpKind.splice, arr, n => some (func_splice arr n)
  | OpKind.reverse, arr, _ => some (func_reverse arr)
  | OpKind.swap, arr, n => func_swap arr n

/-- The literal tail of the `splice` pattern at line 75, i.e. the regex
`function\(a,b\){a\.splice\(0,b\)}` with its escapes removed. -/
def spliceLit : JStr := ("function(a,b)\x7ba.splice(0,b)\x7d").toList

/-- The literal tail of the `reverse` pattern at line 76, i.e. the regex
`function\(a\){a\.reverse\(\)}` with its escapes removed. -/
def reverseLit : JStr := ("function(a)\x7ba.reverse()\x7d").toList

/-- The literal tail of the `swap` pattern at line 77, i.e. the regex
`function\(a,b\){var c=a\[0];a\[0]=a\[b%a\.length];a\[b%a\.length]=c}` with
its escapes removed.  Note the literal space between `var` and `c`. -/
def swapLit : JStr :=
  ("function(a,b)\x7bvar c=a[0];a[0]=a[b%a.length];a[b%a.length]=c\x7d").toList

/-- The normalization applied to the helper-object text before the pattern
search (line 83): `replace('\n', '')` followed by `replace(' ', '')`. -/
def normalizeHelper (s : JStr) : JStr :=
  (s.filter (fun c => c ≠ '\n')).filter (fun c => c ≠ ' ')

/-- One attempt, at a fixed start position, of the member patterns of
lines 75-77: `([a-zA-Z0-9$]+):\s*` followed by the pattern's literal tail.
Returns the captured member identifier. -/
def matchPatternAt (lit : JStr) (s : JStr) : Option JStr :=
  let name := s.takeWhile identChar
  if name.isEmpty then none
  else
    match s.drop name.length with
    | ':' :: r1 => if leadsWith lit (r1.dropWhile pySpace) then some name else none
    | _ => none

/-- Search (`re.search`) of a member pattern over the normalized helper text (line 83):
try every start position from the left. -/
def searchPattern (lit : JStr) : JStr → Option JStr
  | [] => none
  | c :: rest =>
    match matchPatternAt lit (c :: rest) with
    | some m => some m
    | none => searchPattern lit rest

/-- The pattern loop of lines 82-86: for each of the three patterns, in the
insertion order of the `patterns` dict (splice, reverse, swap), search the
normalized helper text and on a match map the qualified name
`helperObjName.member` to the corresponding operation. -/
def buildDecipherFuncs (helperObjName helperFuncsStr : JStr) : List (JStr × OpKind) :=
  let norm := normalizeHelper helperFuncsStr
  let addPat := fun (acc : List (JStr × OpKind)) (lit : JStr) (k : OpKind) =>
    match searchPattern lit norm with
    | some m => acc ++ [(helperObjName ++ '.' :: m, k)]
    | none => acc
  addPat (addPat (addPat [] spliceLit OpKind.splice) reverseLit OpKind.reverse) swapLit OpKind.swap

/-- The lazy part `([\s\S]+?)\};` of the helper-object regex (line 40) after
the first content character: the shortest run of characters up to the first
occurrence of the two-character terminator. -/
def scanToCloseBrace : JStr → Option JStr
  | [] => none
  | '\x7d' :: ';' :: _ => some []
  | c :: rest => (scanToCloseBrace rest).map (fun body => c :: body)

/-- One attempt, at a fixed start position, of the helper-object regex
`var\s+([a-zA-Z0-9$]+)=\s*\{([\s\S]+?)\};` (line 40).  Returns the object
name (group 1) and the member text (group 2). -/
def matchHelperAt (s : JStr) : Option (JStr × JStr) :=
  match s with
  | 'v' :: 'a' :: 'r' :: r0 =>
    let ws := r0.takeWhile pySpace
    if ws.isEmpty then none
    else
      let r1 := r0.drop ws.length
      let name := r1.takeWhile identChar
      if name.isEmpty then none
      else
        match r1.drop name.length with
        | '=' :: r2 =>
          match r2.dropWhile pySpace with
          | '\x7b' :: c :: r4 => (scanToCloseBrace r4).map (fun body => (name, c :: body))
          | _ => none
        | _ => none
  | _ => none

/-- Search (`re.search`) of the helper-object regex over the script (line 40). -/
def findHelperObj : JStr → Option (JStr × JStr)
  | [] => none
  | c :: rest =>
    match matchHelperAt (c :: rest) with
    | some r => some r
    | none => findHelperObj rest

/-- Consume optional whitespace, as the `\s*` fragments of the regexes do. -/
def eatWs (s : JStr) : JStr := s.dropWhile pySpace

/-- Consume a literal regex fragment. -/
def eatLit (lit s : JStr) : Option JStr :=
  if leadsWith lit s then some (s.drop lit.length) else none

/-- The literal `function` of the main-function regex (line 51). -/
def functionLit : JStr := ("function").toList

/-- The literal `a.split("")` of the main-function regex (line 51). -/
def splitCallLit : JStr := ("a.split(\"\")").toList

/-- The literal `return` of the main-function regex (line 51). -/
def returnLit : JStr := ("return").toList

/-- The literal `a.join("")` of the main-function regex (line 51). -/
def joinCallLit : JStr := ("a.join(\"\")").toList

/-- One repetition unit `[a-zA-Z0-9$]+\.[a-zA-Z0-9$]+\(a,\s*\d+\)\s*;` of the
captured group of the main-function regex (line 51).  Returns the raw matched
text (which group 1 accumulates) and the rest of the input. -/
def parseCallStmtText (s : JStr) : Option (JStr × JStr) :=
  let n1 := s.takeWhile identChar
  if n1.isEmpty then none
  else
    match s.drop n1.length with
    | '.' :: r1 =>
      let n2 := r1.takeWhile identChar
      if n2.isEmpty then none
      else
        match r1.drop n2.length with
        | '(' :: 'a' :: ',' :: r2 =>
          let w := r2.takeWhile pySpace
          let r3 := r2.drop w.length
          let d := r3.takeWhile Char.isDigit
          if d.isEmpty then none
          else
            match r3.drop d.length with
            | ')' :: r4 =>
              let w2 := r4.takeWhile pySpace
              match r4.drop w2.length with
              | ';' :: r5 =>
                some (n1 ++ '.' :: n2 ++ '(' :: 'a' :: ',' :: (w ++ d ++ ')' :: w2 ++ [';']), r5)
              | _ => none
            | _ => none
        | _ => none
    | _ => none

/-- Greedy repetition of further call-statement units (the `+` of the
captured group); the fuel argument is the length of the remaining input,
which bounds the number of units. -/
def callStmtsManyAux : Nat → JStr → (JStr × JStr)
  | 0, s => ([], s)
  | fuel + 1, s =>
    match parseCallStmtText s with
    | none => ([], s)
    | some (txt, rest) =>
      let (more, fin) := callStmtsManyAux fuel rest
      (txt ++ more, fin)

/-- The captured group `((?:...)+)` of the main-function regex: one or more
call-statement units; returns the concatenated raw text and the rest. -/
def callStmtsPlus (s : JStr) : Option (JStr × JStr) :=
  match parseCallStmtText s with
  | none => none
  | some (txt, rest) =>
    let (more, fin) := callStmtsManyAux rest.length rest
    some (txt ++ more, fin)

/-- One attempt, at a fixed start position, of the main-function regex of
lines 50-53.  Returns the captured group 1 (the call-statement text). -/
def matchMainAt (s0 : JStr) : Option JStr := do
  let w := s0.takeWhile wordChar
  if w.isEmpty then none
  else
    let s ← eatLit ['='] (eatWs (s0.drop w.length))
    let s ← eatLit functionLit (eatWs s)
    let s ← eatLit ['('] (eatWs s)
    let s ← eatLit ['a'] (eatWs s)
    let s ← eatLit [')'] (eatWs s)
    let s ← eatLit ['\x7b'] (eatWs s)
    let s ← eatLit ['a'] (eatWs s)
    let s ← eatLit ['='] (eatWs s)
    let s ← eatLit splitCallLit (eatWs s)
    let s ← eatLit [';'] (eatWs s)
    match callStmtsPlus (eatWs s) with
    | none => none
    | some (g1, fin) =>
      let t ← eatLit returnLit (eatWs fin)
      let t ← eatLit joinCallLit (eatWs t)
      let _ ← eatLit ['\x7d'] (eatWs t)
      some g1

/-- Search (`re.search`) of the main-function regex over the script (lines 50-53). -/
def findMainFunc : JStr → Option JStr
  | [] => none
  | c :: rest =>
    match matchMainAt (c :: rest) with
    | some g => some g
    | none => findMainFunc rest

/-- The operation list as cached at line 89: split the captured group on
semicolons (line 58), strip each chunk, and keep the non-empty ones. -/
def extractOperationsCached (group1 : JStr) : List JStr :=
  ((splitOnSemi group1).map pyStrip).filter (fun op => !op.isEmpty)

/-- The process-wide `_decipher_cache` dict (line 20), with its two possible
keys `decipher_funcs` and `operations`. -/
structure CacheState where
  decipher_funcs : Option (List (JStr × OpKind))
  operations : Option (List JStr)
deriving DecidableEq

/-- The cache at process start: an empty dict. -/
def emptyCache : CacheState := ⟨none, none⟩

/-- The function `get_decipher_logic` (lines 22-92).  The network fetch of line 31 is
modelled by the `fetch` argument: `none` when `requests.get` or
`raise_for_status` raises (caught at line 35), `some js` when it returns the
script text.  The result is the returned value, the cache after the call, and
whether the fetch at line 31 was executed. -/
def get_decipher_logic (st : CacheState) (fetch : Option JStr) :
    Option (List (JStr × OpKind)) × CacheState × Bool :=
  match st.decipher_funcs with
  | some funcs => (some funcs, st, false)
  | none =>
    match fetch with
    | none => (none, st, true)
    | some js_code =>
      match findHelperObj js_code with
      | none => (none, st, true)
      | some (helperName, helperStr) =>
        match findMainFunc js_code with
        | none => (none, st, true)
        | some group1 =>
          let funcs := buildDecipherFuncs helperName helperStr
          (some funcs, ⟨some funcs, some (extractOperationsCached group1)⟩, true)

/-- Python truthiness of the value returned by `get_decipher_logic`, as
tested at line 97: `None` and the empty dict are both falsy. -/
def truthy : Option (List (JStr × OpKind)) → Bool
  | none => false
  | some l => !l.isEmpty

/-- The replay loop of lines 106-116: for each operation string, statements
failing the call regex are skipped (`continue`), names missing from the table
are skipped, resolved operations are applied in order.  `none` models an
exception escaping the loop. -/
def runOps (funcs : List (JStr × OpKind)) : List JStr → JStr → Option JStr
  | [], arr => some arr
  | op :: rest, arr =>
    match parseFuncCall op with
    | none => runOps funcs rest arr
    | some (name, param) =>
      match funcs.lookup name with
      | none => runOps funcs rest arr
      | some k =>
        match applyOp k arr param with
        | none => none
        | some arr2 => runOps funcs rest arr2

/-- Outcome of a call to `decipher_signature`: either an uncaught Python
exception, or a returned value (`None` or a string). -/
inductive ReplayOutcome where
  | raised
  | returned (r : Option JStr)
deriving DecidableEq

/-- The function `decipher_signature` (lines 94-122): call `get_decipher_logic`; if its
result is falsy, return `None`; otherwise read both cache keys and replay the
operations over the characters of `s_cipher`.  The result is the outcome, the
cache after the call, and whether a fetch was executed. -/
def decipher_signature (st : CacheState) (fetch : Option JStr) (s_cipher : JStr) :
    ReplayOutcome × CacheState × Bool :=
  match get_decipher_logic st fetch with
  | (r, st2, fetched) =>
    if truthy r then
      match st2.decipher_funcs, st2.operations with
      | some funcs, some ops =>
        match runOps funcs ops s_cipher with
        | some arr => (ReplayOutcome.returned (some arr), st2, fetched)
        | none => (ReplayOutcome.raised, st2, fetched)
      | _, _ => (ReplayOutcome.raised, st2, fetched)
    else (ReplayOutcome.returned none, st2, fetched)

/-- Whether an operation statement both matches the call regex and resolves
in the operation table, i.e. whether the replay loop of lines 106-116 applies
it rather than skipping it. -/
def stepResolves (funcs : List (JStr × OpKind)) (op : JStr) : Bool :=
  match parseFuncCall op with
  | none => false
  | some (name, _) => (funcs.lookup name).isSome

/-- One call statement of the main transform function's body, as constrained
by the captured group of the regex at line 51:
`objName.memName(a,<ws1><digits>)<ws2>;` where the names are `[a-zA-Z0-9$]+`
identifiers, `ws1`/`ws2` are the `\\s*` runs and `digits` is the `\\d+`
integer literal. -/
structure CallStmt where
  objName : JStr
  memName : JStr
  ws1 : JStr
  digits : JStr
  ws2 : JStr
deriving DecidableEq

/-- Well-formedness of a call statement: exactly the constraints the
character classes of the regex at line 51 impose on its parts. -/
def CallStmt.wf (c : CallStmt) : Bool :=
  !c.objName.isEmpty && c.objName.all identChar &&
  !c.memName.isEmpty && c.memName.all identChar &&
  c.ws1.all pySpace &&
  !c.digits.isEmpty && c.digits.all Char.isDigit &&
  c.ws2.all pySpace

/-- The qualified name `objName.memName` of a call statement, as captured by
group 1 of the call regex at line 107. -/
def CallStmt.qualName (c : CallStmt) : JStr := c.objName ++ ('.' :: c.memName)

/-- The text of a call statement up to and excluding the closing
parenthesis. -/
def CallStmt.stripCore (c : CallStmt) : JStr :=
  c.objName ++ ('.' :: (c.memName ++ ('(' :: 'a' :: ',' :: (c.ws1 ++ c.digits))))

/-- The text of a call statement without its final semicolon: what one chunk
of the `split(';')` at line 58 contains. -/
def CallStmt.chunkBody (c : CallStmt) : JStr := c.stripCore ++ (')' :: c.ws2)

/-- The chunk after `strip()` (line 89): the trailing whitespace is gone. -/
def CallStmt.strippedBody (c : CallStmt) : JStr := c.stripCore ++ [')']

/-- The full source text of a call statement, semicolon included. -/
def CallStmt.render (c : CallStmt) : JStr := c.chunkBody ++ [';']

/-- The text captured by group 1 of the main-function regex for a body made
of the given call statements: their renderings, concatenated. -/
def renderCalls (calls : List CallStmt) : JStr := (calls.map CallStmt.render).flatten

/-- A script whose helper object and main function match the regexes of
lines 40 and 50-53, but whose single helper member (`a.pop()`) matches none
of the three operation patterns of lines 75-77. -/
def jsUnrecognized : JStr :=
  ("var b=\x7baa:function(a)\x7ba.pop()\x7d\x7d;xx=function(a)\x7ba=a.split(\"\");b.aa(a,1);return a.join(\"\")\x7d").toList

/-- A script with a helper object but no main transform function. -/
def jsHelperOnly : JStr := ("var b=\x7bx:1\x7d;").toList

/-- A script whose main function contains a call statement with no integer
parameter (`bb.cc(a);`). -/
def jsParamless : JStr :=
  ("f=function(a)\x7ba=a.split(\"\");bb.cc(a);return a.join(\"\")\x7d").toList

/-- A call statement with no integer parameter, as the replay loop of
lines 106-109 would see it. -/
def opParamless : JStr := ("bb.cc(a)").toList

/-- A cache whose operation table maps one qualified name to the swap
operation and whose program consists of that one call. -/
def swapOnlyCache : CacheState :=
  ⟨some [(("bb.cc").toList, OpKind.swap)], some [("bb.cc(a,5)").toList]⟩

/-- A one-entry operation table, for witnesses. -/
def demoFuncs : List (JStr × OpKind) := [(("b.aa").toList, OpKind.splice)]

/-- A one-entry operation list, for witnesses. -/
def demoOps : List JStr := [("b.aa(a,1)").toList]

/-- Two concrete well-formed call statements, for witnesses:
`xy.z9(a, 42);` and `b.aa(a,7) ;`. -/
def demoCalls : List CallStmt :=
  [⟨("xy").toList, ("z9").toList, [' '], ("42").toList, []⟩,
   ⟨("b").toList, ("aa").toList, [], ("7").toList, [' ']⟩]

theorem identChar_not_pySpace {c : Char} (h : identChar c = true) : pySpace c = false := by
  cases hsp : pySpace c with
  | false => rfl
  | true =>
    exfalso
    simp only [pySpace, Bool.or_eq_true, beq_iff_eq] at hsp
    rcases hsp with ((((h1 | h1) | h1) | h1) | h1) | h1 <;> subst h1 <;> simp [identChar] at h

theorem digitChar_not_pySpace {c : Char} (h : c.isDigit = true) : pySpace c = false := by
  cases hsp : pySpace c with
  | false => rfl
  | true =>
    exfalso
    simp only [pySpace, Bool.or_eq_true, beq_iff_eq] at hsp
    rcases hsp with ((((h1 | h1) | h1) | h1) | h1) | h1 <;> subst h1 <;> simp [Char.isDigit] at h

/-- C5: `func_splice` on a sequence of length L with parameter n removes
exactly the first `min n L` characters and leaves the rest in their original
order; in particular the defensive-clamp case `n > L` yields the empty
remainder. -/
theorem func_splice_removes_min (s : JStr) (n : Nat) :
    func_splice s n = s.drop (min n s.length) ∧
    s.take (min n s.length) ++ func_splice s n = s ∧
    (func_splice s n).length = s.length - min n s.length := by
  have hmin : func_splice s n = s.drop (min n s.length) := by
    unfold func_splice
    rcases Nat.le_total n s.length with h | h
    · rw [Nat.min_eq_left h]
    · rw [Nat.min_eq_right h, List.drop_eq_nil_of_le h, List.drop_length]
  refine ⟨hmin, ?_, ?_⟩
  · rw [hmin, List.take_append_drop]
  · unfold func_splice
    rw [List.length_drop]
    omega

/-- C6: on a non-empty sequence, `func_swap` returns the sequence with the
elements at positions 0 and `n % L` exchanged, every other position
unchanged; when `n % L = 0` the sequence is returned unchanged. -/
theorem func_swap_exchanges (arr : JStr) (n : Nat) (h : arr ≠ []) :
    ∃ out, func_swap arr n = some out ∧
      out.length = arr.length ∧
      out[0]? = arr[n % arr.length]? ∧
      out[n % arr.length]? = arr[0]? ∧
      (∀ k, k ≠ 0 → k ≠ n % arr.length → out[k]? = arr[k]?) ∧
      (n % arr.length = 0 → out = arr) := by
  obtain ⟨a, t, rfl⟩ : ∃ a t, arr = a :: t := by
    cases arr with
    | nil => exact absurd rfl h
    | cons a t => exact ⟨a, t, rfl⟩
  have hlen : (a :: t).length ≠ 0 := by simp
  have hpos : 0 < (a :: t).length := Nat.pos_of_ne_zero hlen
  have hilt : n % (a :: t).length < (a :: t).length := Nat.mod_lt _ hpos
  refine ⟨(((a :: t).getD (n % (a :: t).length) 'a') :: t).set (n % (a :: t).length) a,
    ?_, ?_, ?_, ?_, ?_, ?_⟩
  · unfold func_swap
    rw [if_neg hlen]
    simp [List.set]
  · simp
  · rcases Nat.eq_zero_or_pos (n % (a :: t).length) with hz | hp
    · have hz2 : n % (t.length + 1) = 0 := by simpa using hz
      simp [hz2, List.set]
    · obtain ⟨j, hj⟩ : ∃ j, n % (a :: t).length = j + 1 :=
        ⟨n % (a :: t).length - 1, by omega⟩
      have hjlt : j < t.length := by
        have h2 := hilt
        rw [hj] at h2
        simpa using h2
      rw [hj, List.getElem?_set_ne (by omega : (j + 1 : Nat) ≠ 0)]
      simp [List.getD_eq_getElem?_getD, List.getElem?_eq_getElem hjlt]
  · rw [List.getElem?_set_self (by simpa using hilt)]
    simp
  · intro k hk0 hki
    rw [List.getElem?_set_ne (fun he => hki he.symm)]
    obtain ⟨m, rfl⟩ : ∃ m, k = m + 1 := ⟨k - 1, by omega⟩
    simp
  · intro hz
    have hz2 : n % (t.length + 1) = 0 := by simpa using hz
    simp [hz2, List.set]

/-- Witness for C6 at the spec's own scenario: signature `abcdef` with
`SwapWithModulo(2)`. -/
theorem func_swap_exchanges_witness :
    ∃ out, func_swap (("abcdef").toList) 2 = some out ∧
      out.length = (("abcdef").toList).length ∧
      out[0]? = (("abcdef").toList)[2 % (("abcdef").toList).length]? ∧
      out[2 % (("abcdef").toList).length]? = (("abcdef").toList)[0]? ∧
      (∀ k, k ≠ 0 → k ≠ 2 % (("abcdef").toList).length →
        out[k]? = (("abcdef").toList)[k]?) ∧
      (2 % (("abcdef").toList).length = 0 → out = ("abcdef").toList) :=
  func_swap_exchanges (("abcdef").toList) 2 (by decide)

/-- C7: the replay loop of lines 106-116 behaves exactly as if every step
that fails the call regex or has no entry in the operation table were absent:
the remaining steps are applied to the same states, in the same order. -/
theorem replay_skips_unresolved_steps (funcs : List (JStr × OpKind))
    (ops : List JStr) (arr : JStr) :
    runOps funcs ops arr = runOps funcs (ops.filter (stepResolves funcs)) arr := by
  induction ops generalizing arr with
  | nil => rfl
  | cons op rest ih =>
    cases hp : parseFuncCall op with
    | none =>
      have hres : stepResolves funcs op = false := by simp [stepResolves, hp]
      rw [List.filter_cons_of_neg (by simp [hres])]
      simp only [runOps, hp]
      exact ih arr
    | some q =>
      obtain ⟨name, param⟩ := q
      cases hl : funcs.lookup name with
      | none =>
        have hres : stepResolves funcs op = false := by simp [stepResolves, hp, hl]
        rw [List.filter_cons_of_neg (by simp [hres])]
        simp only [runOps, hp, hl]
        exact ih arr
      | some k =>
        have hres : stepResolves funcs op = true := by simp [stepResolves, hp, hl]
        rw [List.filter_cons_of_pos (by simp [hres])]
        simp only [runOps, hp, hl]
        cases ha : applyOp k arr param with
        | none => rfl
        | some arr2 => exact ih arr2

theorem takeWhile_class_append {p : Char → Bool} {A : JStr} (b : Char) (t : JStr)
    (hA : ∀ x ∈ A, p x = true) (hb : p b = false) :
    (A ++ b :: t).takeWhile p = A := by
  rw [List.takeWhile_append_of_pos hA, List.takeWhile_cons_of_neg (by simp [hb]),
    List.append_nil]

theorem dropWhile_class_append {p : Char → Bool} {A : JStr} (b : Char) (t : JStr)
    (hA : ∀ x ∈ A, p x = true) (hb : p b = false) :
    (A ++ b :: t).dropWhile p = b :: t := by
  rw [List.dropWhile_append_of_pos hA, List.dropWhile_cons_of_neg (by simp [hb])]

theorem splitOnSemi_ne_nil (s : JStr) : splitOnSemi s ≠ [] := by
  induction s with
  | nil => simp [splitOnSemi]
  | cons c rest ih =>
    by_cases hc : c = ';'
    · simp [splitOnSemi, hc]
    · simp only [splitOnSemi, if_neg hc]
      cases hs : splitOnSemi rest with
      | nil => simp
      | cons h t => simp

theorem splitOnSemi_chunk (chunk rest : JStr) (h : ';' ∉ chunk) :
    splitOnSemi (chunk ++ ';' :: rest) = chunk :: splitOnSemi rest := by
  induction chunk with
  | nil => simp [splitOnSemi]
  | cons c cs ih =>
    have hc : ¬(c = ';') := fun he => h (by simp [he])
    have h2 : ';' ∉ cs := fun hm => h (List.mem_cons_of_mem _ hm)
    simp only [List.cons_append, splitOnSemi, if_neg hc, List.append_eq, ih h2]

theorem wf_spec (c : CallStmt) (h : c.wf = true) :
    c.objName ≠ [] ∧ (∀ x ∈ c.objName, identChar x) ∧
    c.memName ≠ [] ∧ (∀ x ∈ c.memName, identChar x) ∧
    (∀ x ∈ c.ws1, pySpace x) ∧
    c.digits ≠ [] ∧ (∀ x ∈ c.digits, Char.isDigit x) ∧
    (∀ x ∈ c.ws2, pySpace x) := by
  simp only [CallStmt.wf, Bool.and_eq_true, Bool.not_eq_true', List.isEmpty_eq_false,
    List.all_eq_true] at h
  tauto

theorem semi_not_mem_chunkBody (c : CallStmt) (h : c.wf = true) :
    (';' : Char) ∉ c.chunkBody := by
  obtain ⟨h1, h2, h3, h4, h5, h6, h7, h8⟩ := wf_spec c h
  intro hm
  simp only [CallStmt.chunkBody, CallStmt.stripCore, List.mem_append, List.mem_cons] at hm
  rcases hm with (hm | hm | hm | hm | hm | hm | hm | hm) | (hm | hm) <;>
    first
      | exact absurd hm (by decide)
      | exact absurd (h2 _ hm) (by decide)
      | exact absurd (h4 _ hm) (by decide)
      | exact absurd (h5 _ hm) (by decide)
      | exact absurd (h7 _ hm) (by decide)
      | exact absurd (h8 _ hm) (by decide)

theorem pyStrip_chunkBody (c : CallStmt) (h : c.wf = true) :
    pyStrip c.chunkBody = c.strippedBody := by
  obtain ⟨h1, h2, h3, h4, h5, h6, h7, h8⟩ := wf_spec c h
  obtain ⟨o, os, ho⟩ : ∃ o os, c.objName = o :: os := by
    cases hc : c.objName with
    | nil => exact absurd hc h1
    | cons o os => exact ⟨o, os, rfl⟩
  have hoid : identChar o = true := h2 o (by rw [ho]; exact List.mem_cons_self o os)
  have hcb : c.chunkBody =
      o :: (os ++ ('.' :: (c.memName ++ ('(' :: 'a' :: ',' ::
        (c.ws1 ++ (c.digits ++ (')' :: c.ws2))))))) := by
    simp [CallStmt.chunkBody, CallStmt.stripCore, ho, List.cons_append, List.append_assoc]
  have hfront : c.chunkBody.dropWhile pySpace = c.chunkBody := by
    rw [hcb, List.dropWhile_cons_of_neg (by simp [identChar_not_pySpace hoid])]
  have hrev : c.chunkBody.reverse = c.ws2.reverse ++ (')' :: c.stripCore.reverse) := by
    rw [CallStmt.chunkBody, List.reverse_append, List.reverse_cons, List.append_assoc,
      List.singleton_append]
  have hws2r : ∀ x ∈ c.ws2.reverse, pySpace x := fun x hx => h8 x (List.mem_reverse.mp hx)
  calc pyStrip c.chunkBody
      = ((c.chunkBody.dropWhile pySpace).reverse.dropWhile pySpace).reverse := rfl
    _ = (c.chunkBody.reverse.dropWhile pySpace).reverse := by rw [hfront]
    _ = (((c.ws2.reverse ++ (')' :: c.stripCore.reverse)).dropWhile pySpace)).reverse := by
        rw [hrev]
    _ = (')' :: c.stripCore.reverse).reverse := by
        rw [dropWhile_class_append _ _ hws2r (by decide)]
    _ = c.stripCore ++ [')'] := by rw [List.reverse_cons, List.reverse_reverse]
    _ = c.strippedBody := rfl

theorem parseFuncCall_strippedBody (c : CallStmt) (h : c.wf = true) :
    parseFuncCall c.strippedBody = some (c.qualName, natOfDigits c.digits) := by
  obtain ⟨h1, h2, h3, h4, h5, h6, h7, h8⟩ := wf_spec c h
  obtain ⟨d, ds, hd⟩ : ∃ d ds, c.digits = d :: ds := by
    cases hc : c.digits with
    | nil => exact absurd hc h6
    | cons d ds => exact ⟨d, ds, rfl⟩
  have hshape : c.strippedBody =
      c.objName ++ ('.' :: (c.memName ++ ('(' :: 'a' :: ',' ::
        (c.ws1 ++ (c.digits ++ (')' :: [])))))) := by
    simp [CallStmt.strippedBody, CallStmt.stripCore, List.append_assoc]
  have hobjE : c.objName.isEmpty = false := List.isEmpty_eq_false.mpr h1
  have hmemE : c.memName.isEmpty = false := List.isEmpty_eq_false.mpr h3
  have hdigE : c.digits.isEmpty = false := List.isEmpty_eq_false.mpr h6
  have htake1 : (c.objName ++ ('.' :: (c.memName ++ ('(' :: 'a' :: ',' ::
      (c.ws1 ++ (c.digits ++ (')' :: []))))))).takeWhile identChar = c.objName :=
    takeWhile_class_append _ _ h2 (by decide)
  have htake2 : (c.memName ++ ('(' :: 'a' :: ',' ::
      (c.ws1 ++ (c.digits ++ (')' :: []))))).takeWhile identChar = c.memName :=
    takeWhile_class_append _ _ h4 (by decide)
  have hdnotsp : pySpace d = false := digitChar_not_pySpace (h7 d (by rw [hd]; simp))
  have hdropws : (c.ws1 ++ (c.digits ++ (')' :: []))).dropWhile pySpace =
      c.digits ++ (')' :: []) := by
    rw [hd, List.cons_append]
    exact dropWhile_class_append _ _ h5 hdnotsp
  have htaked : (c.digits ++ (')' :: [])).takeWhile Char.isDigit = c.digits :=
    takeWhile_class_append _ _ h7 (by decide)
  rw [hshape]
  simp only [parseFuncCall, parseQualName, htake1, hobjE, List.drop_left, Bool.false_eq_true,
    if_false, htake2, hmemE, parseAfterParen, hdropws, htaked, hdigE]
  simp [CallStmt.qualName]

theorem splitOnSemi_renderCalls (calls : List CallStmt) :
    (∀ c ∈ calls, c.wf = true) →
    splitOnSemi (renderCalls calls) = (calls.map CallStmt.chunkBody) ++ [[]] := by
  induction calls with
  | nil => intro _; simp [renderCalls, splitOnSemi]
  | cons c cs ih =>
    intro h
    have hc := h c (List.mem_cons_self c cs)
    have hcs := fun x hx => h x (List.mem_cons_of_mem _ hx)
    have hr : renderCalls (c :: cs) = c.chunkBody ++ (';' :: renderCalls cs) := by
      simp [renderCalls, CallStmt.render, List.append_assoc]
    rw [hr, splitOnSemi_chunk _ _ (semi_not_mem_chunkBody c hc), ih hcs]
    simp

theorem extractOps_renderCalls (calls : List CallStmt) (h : ∀ c ∈ calls, c.wf = true) :
    extractOperationsCached (renderCalls calls) = calls.map CallStmt.strippedBody := by
  rw [extractOperationsCached, splitOnSemi_renderCalls calls h, List.map_append,
    List.map_map, List.filter_append]
  have hmaps : calls.map (pyStrip ∘ CallStmt.chunkBody) = calls.map CallStmt.strippedBody :=
    List.map_congr_left (fun c hc => pyStrip_chunkBody c (h c hc))
  rw [hmaps]
  have hfilter1 : (calls.map CallStmt.strippedBody).filter (fun op => !op.isEmpty) =
      calls.map CallStmt.strippedBody := by
    rw [List.filter_eq_self]
    intro a ha
    obtain ⟨c, hc, rfl⟩ := List.mem_map.mp ha
    simp [CallStmt.strippedBody]
  rw [hfilter1]
  simp [pyStrip]

theorem parsedSteps_strippedBodies (calls : List CallStmt) :
    (∀ c ∈ calls, c.wf = true) →
    parsedSteps (calls.map CallStmt.strippedBody) =
      calls.map (fun c => (c.qualName, natOfDigits c.digits)) := by
  induction calls with
  | nil => intro _; rfl
  | cons c cs ih =>
    intro h
    have hc := h c (List.mem_cons_self c cs)
    have hcs := fun x hx => h x (List.mem_cons_of_mem _ hx)
    simp only [List.map_cons, parsedSteps, List.filterMap_cons,
      parseFuncCall_strippedBody c hc]
    exact congrArg _ (ih hcs)

/-- C1: for every main-function body made of well-formed call statements (the
shape the regex of line 51 documents), the extracted and cached operation
list has exactly one entry per call statement, and the replay-time parse of
those entries yields the statements' qualified names and integer parameters
in source order. -/
theorem extraction_one_step_per_call (calls : List CallStmt)
    (h : ∀ c ∈ calls, c.wf = true) :
    parsedSteps (extractOperationsCached (renderCalls calls)) =
      calls.map (fun c => (c.qualName, natOfDigits c.digits)) ∧
    (extractOperationsCached (renderCalls calls)).length = calls.length := by
  have h1 := extractOps_renderCalls calls h
  constructor
  · rw [h1]
    exact parsedSteps_strippedBodies calls h
  · rw [h1, List.length_map]

/-- Witness for C1 at two concrete call statements. -/
theorem extraction_one_step_per_call_witness :
    parsedSteps (extractOperationsCached (renderCalls demoCalls)) =
      demoCalls.map (fun c => (c.qualName, natOfDigits c.digits)) ∧
    (extractOperationsCached (renderCalls demoCalls)).length = demoCalls.length :=
  extraction_one_step_per_call demoCalls (by decide)

theorem mem_of_leadsWith : ∀ (lit t : JStr), leadsWith lit t = true → ∀ x ∈ lit, x ∈ t := by
  intro lit
  induction lit with
  | nil => intro t _ x hx; exact absurd hx (List.not_mem_nil x)
  | cons a as ih =>
    intro t hlt x hx
    cases t with
    | nil => exact absurd hlt (by simp [leadsWith])
    | cons b bs =>
      simp only [leadsWith, Bool.and_eq_true, beq_iff_eq] at hlt
      rcases List.mem_cons.mp hx with rfl | hx2
      · exact hlt.1 ▸ List.mem_cons_self b bs
      · exact List.mem_cons_of_mem b (ih bs hlt.2 x hx2)

theorem nospace_normalizeHelper (s : JStr) : (' ' : Char) ∉ normalizeHelper s := by
  intro hm
  simp [normalizeHelper, List.mem_filter] at hm

theorem matchPatternAt_swap_none (s : JStr) (hs : (' ' : Char) ∉ s) :
    matchPatternAt swapLit s = none := by
  simp only [matchPatternAt]
  split
  · rfl
  · split
    · next r1 heq =>
      have hlw : leadsWith swapLit (r1.dropWhile pySpace) = false := by
        cases hl : leadsWith swapLit (r1.dropWhile pySpace) with
        | false => rfl
        | true =>
          exfalso
          have hsp : (' ' : Char) ∈ r1.dropWhile pySpace :=
            mem_of_leadsWith _ _ hl ' ' (by decide)
          have h1 : (' ' : Char) ∈ r1 := (List.dropWhile_sublist pySpace).mem hsp
          have h2 : (' ' : Char) ∈ s :=
            List.mem_of_mem_drop (heq ▸ List.mem_cons_of_mem ':' h1)
          exact hs h2
      simp [hlw]
    · rfl

theorem searchPattern_swap_none (t : JStr) (ht : (' ' : Char) ∉ t) :
    searchPattern swapLit t = none := by
  induction t with
  | nil => rfl
  | cons c rest ih =>
    have h1 : (' ' : Char) ∉ rest := fun hm => ht (List.mem_cons_of_mem _ hm)
    simp only [searchPattern, matchPatternAt_swap_none _ ht, ih h1]

/-- C4 (code bug): the swap reference pattern of line 77 contains a literal
space (`var c=`), but it is searched in text from which every space has been
removed (line 83), so it can never match: no helper body — not even the
canonical swap body itself — is ever classified as the swap operation, and no
operation table built by the pattern loop ever contains the swap operation. -/
theorem swap_pattern_never_matches :
    (∀ s : JStr, searchPattern swapLit (normalizeHelper s) = none) ∧
    (∀ hname hstr : JStr,
      (buildDecipherFuncs hname hstr).all (fun p => p.2 != OpKind.swap) = true) := by
  constructor
  · intro s
    exact searchPattern_swap_none _ (nospace_normalizeHelper s)
  · intro hname hstr
    have hsw := searchPattern_swap_none (normalizeHelper hstr) (nospace_normalizeHelper hstr)
    simp only [buildDecipherFuncs, hsw]
    cases h1 : searchPattern spliceLit (normalizeHelper hstr) <;>
      cases h2 : searchPattern reverseLit (normalizeHelper hstr) <;>
        simp [h1, h2, hsw]

/-- C2 (code bug): replay can raise.  With the operation table mapping
`bb.cc` to the swap operation and the program `[bb.cc(a,5)]`, deciphering the
empty signature executes `func_swap` on an empty array, whose
`index % len(arr)` is a `ZeroDivisionError` in Python: `decipher_signature`
raises instead of returning a string.  There is no length guard in
`func_swap` (lines 67-72). -/
theorem swap_on_empty_raises :
    decipher_signature swapOnlyCache none [] =
      (ReplayOutcome.raised, swapOnlyCache, false) := by decide

/-- C3 (counterexample): a call statement without an integer parameter does
not yield a program step — it is lost.  At replay time the statement
`bb.cc(a)` fails the call regex of line 107 and is skipped; inside a main
function body, the same statement makes the whole main-function regex of
line 51 fail, so no program is extracted at all. -/
theorem paramless_call_lost :
    parsedSteps [opParamless] = [] ∧ findMainFunc jsParamless = none := by decide

/-- C3 (amended): the emitted program step's parameter is the integer
literal at the call site when one is present; a call statement without an
integer parameter does not yield a step — the replay loop's call regex
rejects it and the statement is skipped, with no defaulting to 0. -/
theorem step_param_literal_or_dropped :
    (∀ c : CallStmt, c.wf = true →
      parseFuncCall c.strippedBody = some (c.qualName, natOfDigits c.digits)) ∧
    (∀ A B : JStr, (∀ x ∈ A, identChar x) → (∀ x ∈ B, identChar x) →
      A ≠ [] → B ≠ [] →
      parseFuncCall (A ++ ('.' :: (B ++ ('(' :: 'a' :: (')' :: []))))) = none) := by
  constructor
  · exact parseFuncCall_strippedBody
  · intro A B hA hB hAne hBne
    have htA : (A ++ ('.' :: (B ++ ('(' :: 'a' :: (')' :: []))))).takeWhile identChar = A :=
      takeWhile_class_append _ _ hA (by decide)
    have htB : (B ++ ('(' :: 'a' :: (')' :: []))).takeWhile identChar = B :=
      takeWhile_class_append _ _ hB (by decide)
    simp only [parseFuncCall, parseQualName, htA, List.drop_left,
      List.isEmpty_eq_false.mpr hAne, htB, List.isEmpty_eq_false.mpr hBne,
      Bool.false_eq_true, if_false]
    rfl

/-- Witness for the amended C3: `bb.cc(a,5)` yields the step
`(bb.cc, 5)`; `bb.cc(a)` yields no step. -/
theorem step_param_literal_or_dropped_witness :
    parseFuncCall (CallStmt.strippedBody
        ⟨("bb").toList, ("cc").toList, [], ("5").toList, []⟩) =
      some (CallStmt.qualName ⟨("bb").toList, ("cc").toList, [], ("5").toList, []⟩,
        natOfDigits (("5").toList)) ∧
    parseFuncCall ((("bb").toList) ++
      ('.' :: ((("cc").toList) ++ ('(' :: 'a' :: (')' :: []))))) = none :=
  ⟨step_param_literal_or_dropped.1 _ (by decide),
   step_param_literal_or_dropped.2 _ _ (by decide) (by decide) (by decide) (by decide)⟩

/-- C8 (counterexample): the three failure causes are not distinguishable by
the caller.  A fetch failure, a script with no helper object, and a script
with a helper object but no main function make `get_decipher_logic` return
the very same value (`None`, cache unchanged): the outputs of the three
failing calls are equal, so no classification reaches the caller. -/
theorem failure_values_indistinguishable :
    get_decipher_logic emptyCache none = get_decipher_logic emptyCache (some []) ∧
    get_decipher_logic emptyCache (some []) =
      get_decipher_logic emptyCache (some jsHelperOnly) := by decide

/-- C8 (amended): every failed descrambling attempt — fetch failure, no
helper object, or no main function — returns the single undifferentiated
value `None` with the cache unchanged; the three causes are told apart only
in diagnostic log output, never in the value the caller receives. -/
theorem failures_all_return_none (st : CacheState) (fetch : Option JStr)
    (hmiss : st.decipher_funcs = none)
    (hfail : fetch = none ∨
      ∃ js, fetch = some js ∧ (findHelperObj js = none ∨ findMainFunc js = none)) :
    get_decipher_logic st fetch = (none, st, true) := by
  obtain ⟨df, ops⟩ := st
  simp only at hmiss
  subst hmiss
  rcases hfail with rfl | ⟨js, rfl, hcase⟩
  · rfl
  · rcases hcase with h1 | h2
    · simp [get_decipher_logic, h1]
    · cases hh : findHelperObj js with
      | none => simp [get_decipher_logic, hh]
      | some p =>
        obtain ⟨hname, hstr⟩ := p
        simp [get_decipher_logic, hh, h2]

/-- Witness for the amended C8 at a concrete failing fetch. -/
theorem failures_all_return_none_witness :
    get_decipher_logic emptyCache none = (none, emptyCache, true) :=
  failures_all_return_none emptyCache none rfl (Or.inl rfl)

/-- C9: cache lifecycle.  With a cached entry, `get_decipher_logic` returns
it unchanged and performs no fetch.  On a miss it always fetches, and either
fails leaving the cache exactly as it was (so the next request fetches
again), or succeeds and stores the returned table as the new entry — entries
are created only by successful extractions and are never invalidated. -/
theorem cache_lifecycle (st : CacheState) (fetch : Option JStr) :
    (∀ fs, st.decipher_funcs = some fs →
      get_decipher_logic st fetch = (some fs, st, false)) ∧
    (st.decipher_funcs = none →
      (get_decipher_logic st fetch).2.2 = true ∧
      (((get_decipher_logic st fetch).1 = none ∧
        (get_decipher_logic st fetch).2.1 = st) ∨
       (∃ fs ops, (get_decipher_logic st fetch).1 = some fs ∧
        (get_decipher_logic st fetch).2.1 = (⟨some fs, some ops⟩ : CacheState)))) := by
  obtain ⟨df, ops⟩ := st
  constructor
  · intro fs hfs
    simp only at hfs
    subst hfs
    rfl
  · intro hmiss
    simp only at hmiss
    subst hmiss
    cases fetch with
    | none => exact ⟨rfl, Or.inl ⟨rfl, rfl⟩⟩
    | some js =>
      cases hh : findHelperObj js with
      | none =>
        refine ⟨?_, Or.inl ⟨?_, ?_⟩⟩ <;> simp [get_decipher_logic, hh]
      | some p =>
        obtain ⟨hname, hstr⟩ := p
        cases hm : findMainFunc js with
        | none =>
          refine ⟨?_, Or.inl ⟨?_, ?_⟩⟩ <;> simp [get_decipher_logic, hh, hm]
        | some g1 =>
          refine ⟨?_, Or.inr ⟨buildDecipherFuncs hname hstr,
            extractOperationsCached g1, ?_, ?_⟩⟩ <;> simp [get_decipher_logic, hh, hm]

/-- Witness for C9: a cache hit is returned as-is with no fetch. -/
theorem cache_lifecycle_witness :
    get_decipher_logic (⟨some demoFuncs, some demoOps⟩ : CacheState) none =
      (some demoFuncs, (⟨some demoFuncs, some demoOps⟩ : CacheState), false) :=
  (cache_lifecycle (⟨some demoFuncs, some demoOps⟩ : CacheState) none).1 demoFuncs rfl

/-- C10: when the script matches the helper-object and main-function shapes
but no operation pattern matches any helper member, the empty table is
stored in the cache as a successful entry; `decipher_signature` treats the
empty table as falsy and returns `None`; and every later request hits the
cache, performs no fetch, and returns `None` again — a permanent failure
never retried against fresh script text. -/
theorem empty_table_cached_forever (js hname hstr g1 : JStr)
    (h1 : findHelperObj js = some (hname, hstr))
    (h2 : findMainFunc js = some g1)
    (h3 : buildDecipherFuncs hname hstr = []) :
    get_decipher_logic emptyCache (some js) =
      (some [], (⟨some [], some (extractOperationsCached g1)⟩ : CacheState), true) ∧
    (∀ s_cipher, decipher_signature emptyCache (some js) s_cipher =
      (ReplayOutcome.returned none,
        (⟨some [], some (extractOperationsCached g1)⟩ : CacheState), true)) ∧
    (∀ fetch s_cipher,
      decipher_signature (⟨some [], some (extractOperationsCached g1)⟩ : CacheState)
          fetch s_cipher =
        (ReplayOutcome.returned none,
          (⟨some [], some (extractOperationsCached g1)⟩ : CacheState), false)) := by
  have hget : get_decipher_logic emptyCache (some js) =
      (some [], (⟨some [], some (extractOperationsCached g1)⟩ : CacheState), true) := by
    simp [get_decipher_logic, emptyCache, h1, h2, h3]
  refine ⟨hget, ?_, ?_⟩
  · intro s
    simp [decipher_signature, hget, truthy]
  · intro fetch s
    have hhit : get_decipher_logic
        (⟨some [], some (extractOperationsCached g1)⟩ : CacheState) fetch =
        (some [], (⟨some [], some (extractOperationsCached g1)⟩ : CacheState), false) := rfl
    simp [decipher_signature, hhit, truthy]

/-- Witness for C10 at a concrete script whose only helper member is
`a.pop()`: the first request stores the empty table and fails, the second
request hits the cache, fetches nothing, and fails again. -/
theorem empty_table_cached_forever_witness :
    get_decipher_logic emptyCache (some jsUnrecognized) =
      (some [],
        (⟨some [], some (extractOperationsCached (("b.aa(a,1);").toList))⟩ : CacheState),
        true) ∧
    decipher_signature emptyCache (some jsUnrecognized) (("s3Cr3t").toList) =
      (ReplayOutcome.returned none,
        (⟨some [], some (extractOperationsCached (("b.aa(a,1);").toList))⟩ : CacheState),
        true) ∧
    decipher_signature
        (⟨some [], some (extractOperationsCached (("b.aa(a,1);").toList))⟩ : CacheState)
        none (("s3Cr3t").toList) =
      (ReplayOutcome.returned none,
        (⟨some [], some (extractOperationsCached (("b.aa(a,1);").toList))⟩ : CacheState),
        false) := by
  have h := empty_table_cached_forever jsUnrecognized (("b").toList)
    (("aa:function(a)\x7ba.pop()\x7d").toList) (("b.aa(a,1);").toList)
    (by decide) (by decide) (by decide)
  exact ⟨h.1, h.2.1 _, h.2.2 none _⟩
